import Mathlib

/-!
Shallow embedding of the two pipelines of the `nlp-2025` repository:
`src/task-1/solve_task_1_fast.py` (yargy-grammar birth-fact extractor)
and `src/task-2/semantic_grep.py` (word2vec semantic grep).

External collaborators (the morphological analyzer pymorphy2, the gensim
tokenizer, the embedding trainer) are modelled as opaque parameters; the
repository's own logic (grammar composition, pre-filter, line handling,
search loop) is embedded concretely.
-/

namespace NLP2025

/-! ## Task 1: tokens and token-level predicates

Tokens as produced by yargy's `MorphTokenizer` together with the
morphological analyzer: either an `INT` token carrying its numeric value,
or a word token carrying its surface, its normal form (analyzer output),
its capitalization flag, and its grammemes. A `morph_pipeline` /
`dictionary` predicate is modelled as membership of the token's normal
form in the literal key list written in the source (key normalization is
the external analyzer's job; multi-character units such as `г.` are
treated as single normalized units). -/

inductive Token where
  | int (v : Nat)
  | word (surface : String) (norm : String) (caps : Bool) (grams : List String)
deriving DecidableEq, Repr

/-- Surface value of an INT token (0 for word tokens). -/
def Token.intVal : Token → Nat
  | .int v => v
  | .word _ _ _ _ => 0

/-- Predicate `type('INT')` of yargy. -/
def Token.isInt : Token → Bool
  | .int _ => true
  | .word _ _ _ _ => false

/-- Month dictionary of the source (`MONTH_NAME`). -/
def months : List String :=
  ["январь", "февраль", "март", "апрель", "май", "июнь",
   "июль", "август", "сентябрь", "октябрь", "ноябрь", "декабрь"]

/-- Predicate `DAY = and_(type('INT'), gte(1), lte(31))`. -/
def dayTok : Token → Bool
  | .int v => decide (1 ≤ v) && decide (v ≤ 31)
  | .word _ _ _ _ => false

/-- Predicate `YEAR = and_(type('INT'), gte(1000), lte(2100))`. -/
def yearTok : Token → Bool
  | .int v => decide (1000 ≤ v) && decide (v ≤ 2100)
  | .word _ _ _ _ => false

/-- Predicate `MONTH_NAME = dictionary({...})`: the token's normal form is
one of the twelve month names (an INT token never is). -/
def monthTok : Token → Bool
  | .int _ => false
  | .word _ n _ _ => months.contains n

/-- Predicate for `YEAR_WORD = morph_pipeline(['год', 'г.'])`. -/
def yearWordTok : Token → Bool
  | .int _ => false
  | .word _ n _ _ => n == "год" || n == "г."

/-- Predicate for `IN = morph_pipeline(['в', 'во', 'из'])`. -/
def inTok : Token → Bool
  | .int _ => false
  | .word _ n _ _ => n == "в" || n == "во" || n == "из"

/-- Predicate for
`BIRTH_VERB = morph_pipeline(['родился', 'родилась', 'родились', 'уроженец', 'уроженка'])`. -/
def verbTok : Token → Bool
  | .int _ => false
  | .word _ n _ _ =>
      n == "родился" || n == "родилась" || n == "родились" ||
      n == "уроженец" || n == "уроженка"

/-- Predicate for `and_(gram('Name'), is_capitalized())` (one NAME token). -/
def nameTok : Token → Bool
  | .int _ => false
  | .word _ _ caps grams => grams.contains "Name" && caps

/-- Predicate for `and_(gram('Geox'), is_capitalized())` (one PLACE token). -/
def placeTok : Token → Bool
  | .int _ => false
  | .word _ _ caps grams => grams.contains "Geox" && caps

/-! ## Task 1: the DATE sub-grammar

`DATE = or_(rule(DAY, MONTH_NAME, YEAR, YEAR_WORD.optional()),
            rule(DAY, MONTH_NAME, YEAR),
            rule(DAY, MONTH_NAME),
            rule(YEAR, YEAR_WORD))`. -/

/-- First DATE alternative: day, month, year, optional year-word. -/
def dateR1 : List Token → Bool
  | [a, b, c, d] => dayTok a && monthTok b && yearTok c && yearWordTok d
  | [a, b, c] => dayTok a && monthTok b && yearTok c
  | _ => false

/-- Second DATE alternative: day, month, year. -/
def dateR2 : List Token → Bool
  | [a, b, c] => dayTok a && monthTok b && yearTok c
  | _ => false

/-- Third DATE alternative: day, month. -/
def dateR3 : List Token → Bool
  | [a, b] => dayTok a && monthTok b
  | _ => false

/-- Fourth DATE alternative: year, year-word. -/
def dateR4 : List Token → Bool
  | [a, b] => yearTok a && yearWordTok b
  | _ => false

/-- Index of the first DATE alternative (in source order) accepting the
span, `none` if no alternative accepts it. -/
def dateAlt (ts : List Token) : Option Nat :=
  if dateR1 ts then some 0
  else if dateR2 ts then some 1
  else if dateR3 ts then some 2
  else if dateR4 ts then some 3
  else none

/-- Acceptance by the DATE sub-grammar. -/
def dateAccepts (ts : List Token) : Bool := (dateAlt ts).isSome

/-! ## Task 1: sentence patterns and interpretation

`BIRTH_RULE = or_(PATTERN_1, PATTERN_2, PATTERN_3).interpretation(BirthFact)`
with `PATTERN_1 = rule(NAME, BIRTH_VERB, DATE, IN, PLACE)`,
`PATTERN_2 = rule(NAME, BIRTH_VERB, IN, PLACE)`,
`PATTERN_3 = rule(BIRTH_VERB, PLACE, NAME)`.
The interpreted fact keeps the matched spans. -/

structure Entry where
  name : List Token
  birth_date : Option (List Token)
  birth_place : Option (List Token)
deriving DecidableEq, Repr

/-- Acceptance by `NAME` (`repeatable`: one or more NAME tokens). -/
def nameSeq (ts : List Token) : Bool := !ts.isEmpty && ts.all nameTok

/-- Match of PATTERN_1 on `ts` with a name segment of length `k`. -/
def p1At (ts : List Token) (k : Nat) : Option Entry :=
  match ts.drop k with
  | [] => none
  | v :: rest =>
    if nameSeq (ts.take k) && verbTok v && decide (2 ≤ rest.length) then
      match rest.drop (rest.length - 2) with
      | [i, p] =>
        if dateAccepts (rest.take (rest.length - 2)) && inTok i && placeTok p then
          some ⟨ts.take k, some (rest.take (rest.length - 2)), some [p]⟩
        else none
      | _ => none
    else none

/-- Match of `PATTERN_1 = rule(NAME, BIRTH_VERB, DATE, IN, PLACE)`. -/
def matchP1 (ts : List Token) : Option Entry :=
  (List.range (ts.length + 1)).findSome? (p1At ts)

/-- Match of `PATTERN_2 = rule(NAME, BIRTH_VERB, IN, PLACE)`. -/
def matchP2 (ts : List Token) : Option Entry :=
  if 4 ≤ ts.length then
    match ts.drop (ts.length - 3) with
    | [v, i, p] =>
      if nameSeq (ts.take (ts.length - 3)) && verbTok v && inTok i && placeTok p then
        some ⟨ts.take (ts.length - 3), none, some [p]⟩
      else none
    | _ => none
  else none

/-- Match of `PATTERN_3 = rule(BIRTH_VERB, PLACE, NAME)`. -/
def matchP3 : List Token → Option Entry
  | v :: p :: nm =>
    if verbTok v && placeTok p && nameSeq nm then
      some ⟨nm, none, some [p]⟩
    else none
  | _ => none

/-- Match of `BIRTH_RULE` on a span: the three patterns tried in source
order, first applicable wins. -/
def matchBirth (ts : List Token) : Option Entry :=
  match matchP1 ts with
  | some e => some e
  | none =>
    match matchP2 ts with
    | some e => some e
    | none => matchP3 ts

/-! ## Line handling shared by both pipelines

Python strings are modelled as `List Char` (sequences of codepoints), so
that `strip`, `split('\t')`, `lower` and substring containment are
executable in the embedding. -/

/-- Text as a sequence of codepoints (the model of a Python `str`). -/
abbrev Str := List Char

/-- Whitespace stripped by Python's `str.strip` (the characters relevant
to this corpus). -/
def isWs (c : Char) : Bool := c == ' ' || c == '\t' || c == '\n' || c == '\r'

/-- Model of Python `str.strip()`. -/
def pyStrip (s : Str) : Str :=
  ((s.dropWhile isWs).reverse.dropWhile isWs).reverse

/-- Model of Python `str.lower()` on the Latin and Cyrillic letters of
this corpus. -/
def lowerChar (c : Char) : Char :=
  if 'A' ≤ c && c ≤ 'Z' then Char.ofNat (c.toNat + 32)
  else if 'А' ≤ c && c ≤ 'Я' then Char.ofNat (c.toNat + 32)
  else if c == 'Ё' then 'ё'
  else c

/-- Model of Python `str.lower()` on a whole string. -/
def pyLower (s : Str) : Str := s.map lowerChar

/-- Model of Python `line.split('\t')`. -/
def splitTab (s : Str) : List Str := List.splitOn '\t' s

/-- Text selection of task 1 (applied to the stripped line):
`parts = line.split('\t'); text = parts[-1] if len(parts) >= 3 else line`. -/
def selectText1 (l : Str) : Str :=
  if 3 ≤ (splitTab l).length then (splitTab l).getLastD [] else l

/-- Text selection of task 2: `parts = line.strip().split('\t');
text = parts[2] if len(parts) >= 3 else line` (the fallback is the
unstripped line). -/
def selectText2 (line : Str) : Str :=
  if 3 ≤ (splitTab (pyStrip line)).length then (splitTab (pyStrip line)).getD 2 []
  else line

/-- Keyword stems of the pre-filter: `KEYWORDS = ['родил', 'урожен']`. -/
def keywords : List Str := ["родил".data, "урожен".data]

/-- Pre-filter test: `any(kw in text_lower for kw in KEYWORDS)` where
`text_lower = text.lower()`. -/
def hasKeyword (text : Str) : Bool :=
  keywords.any (fun kw => decide (kw <:+: pyLower text))

/-- Outcome of the task-1 loop body on one raw line. -/
inductive LineResult where
  | skippedEmpty
  | skippedNoKeyword
  | parsed (facts : List Entry)
deriving DecidableEq, Repr

/-- Loop body of `extract_birth_info_fast` on one raw line: strip, skip
empty lines, select the text column, pre-filter on the keywords, and only
then hand the text to the yargy parsing stage (modelled by the abstract
`parse`, the composite of tokenizer and `parser.findall` interpretation). -/
def processLine (parse : Str → List Entry) (line : Str) : LineResult :=
  if (pyStrip line).isEmpty then .skippedEmpty
  else if hasKeyword (selectText1 (pyStrip line)) then
    .parsed (parse (selectText1 (pyStrip line)))
  else .skippedNoKeyword

/-- Facts collected by the task-1 loop over a list of raw lines. -/
def collectEntries (parse : Str → List Entry) (ls : List Str) : List Entry :=
  ls.foldl
    (fun acc line =>
      match processLine parse line with
      | .parsed fs => acc ++ fs
      | _ => acc)
    []

/-! ## File-level control flow (error handling)

A read of the input file either fails to open (`FileNotFoundError`),
yields some lines and then raises mid-stream, or yields all lines. The
`try`/`except` structure of the two scripts maps each outcome to an
explicit result. -/

inductive ReadOutcome where
  | missing
  | errAfter (ls : List Str)
  | ok (ls : List Str)

/-- Outcome of running a whole script-level operation. -/
inductive RunOutcome (α : Type) where
  | returns (v : α)
  | exits (code : Nat)
  | raises (msg : String)
deriving Repr

/-- Run of `extract_birth_info_fast`: `except FileNotFoundError` and
`except Exception` both print an error and fall through to
`return entries`, so every outcome returns normally; the Bool records
whether an error message was printed. -/
def runExtract (parse : Str → List Entry) (r : ReadOutcome) :
    RunOutcome (List Entry) × Bool :=
  match r with
  | .missing => (.returns [], true)
  | .errAfter ls => (.returns (collectEntries parse ls), true)
  | .ok ls => (.returns (collectEntries parse ls), false)

/-! ## Task 2: preprocessing, model, synonyms, search -/

/-- External collaborators of `SemanticGrep`: the gensim
`simple_preprocess` tokenizer, the stopword set, and the pymorphy2
normal-form map. -/
structure Env where
  tokenize : Str → List Str
  stopWords : List Str
  normal : Str → Str

/-- Embedding of `SemanticGrep.preprocess_text`: tokenize, keep tokens
that are not stopwords and have length > 2, and map each kept token to
its normal form. -/
def preprocess_text (env : Env) (text : Str) : List Str :=
  ((env.tokenize text).filter
    (fun t => !env.stopWords.contains t && decide (2 < t.length))).map env.normal

/-- Sentences built by `load_and_preprocess` from the raw lines. -/
def sentencesOf (env : Env) (ls : List Str) : List (List Str) :=
  ls.filterMap (fun line =>
    let toks := preprocess_text env (selectText2 line)
    if toks.isEmpty then none else some toks)

/-- Run of `load_and_preprocess`: any exception (including a missing
file) is caught and the run calls `sys.exit(1)`. -/
def runLoad (env : Env) (r : ReadOutcome) : RunOutcome (List (List Str)) :=
  match r with
  | .ok ls => .returns (sentencesOf env ls)
  | .missing => .exits 1
  | .errAfter _ => .exits 1

/-- Trained Word2Vec model, abstractly: its vocabulary (`model.wv`
membership) and its `most_similar` query (cosine nearest neighbours are
the library's responsibility). -/
structure W2V where
  vocab : List Str
  mostSimilar : Str → Nat → List Str

/-- Outcome of `get_synonyms`: the raised `ValueError`, the two
diagnostic empty returns, or the synonym list. -/
inductive SynOut where
  | raised
  | filteredEmpty
  | oovEmpty (target : Str)
  | ok (target : Str) (syns : List Str)
deriving DecidableEq

/-- Embedding of `SemanticGrep.get_synonyms`: raise when no model is
trained; return empty with a warning when the preprocessed query is empty
or its first token is out of vocabulary; otherwise return
`most_similar(target, topn)`. -/
def get_synonyms (env : Env) (model : Option W2V) (word : Str) (topn : Nat) :
    SynOut :=
  match model with
  | none => .raised
  | some m =>
    match preprocess_text env word with
    | [] => .filteredEmpty
    | target :: _ =>
      if target ∈ m.vocab then .ok target (m.mostSimilar target topn)
      else .oovEmpty target

/-- List actually returned by `get_synonyms` in the non-raising cases. -/
def synListOf : SynOut → List Str
  | .raised => []
  | .filteredEmpty => []
  | .oovEmpty _ => []
  | .ok _ syns => syns

/-- Test for the raised outcome. -/
def SynOut.isRaised : SynOut → Bool
  | .raised => true
  | _ => false

/-- One line's matched terms: `search_terms.intersection(line_tokens)`. -/
def foundTerms (env : Env) (terms : List Str) (line : Str) : List Str :=
  terms.filter (fun t => (preprocess_text env line).contains t)

/-- Match test for one corpus line (non-empty intersection). -/
def matchesLine (env : Env) (terms : List Str) (line : Str) : Bool :=
  !(foundTerms env terms line).isEmpty

/-- Search loop of `grep`: scan lines carrying the running index and the
match count; report each matching line, and stop as soon as the match
count reaches the cap (`if match_count >= 10: break`). Returns the
reported matches and the number of lines examined. -/
def scan (env : Env) (terms : List Str) (cap : Nat) :
    List Str → Nat → Nat → List (Nat × List Str × Str) × Nat
  | [], _, _ => ([], 0)
  | l :: ls, idx, cnt =>
    if (foundTerms env terms l).isEmpty then
      ((scan env terms cap ls (idx + 1) cnt).1,
       (scan env terms cap ls (idx + 1) cnt).2 + 1)
    else if cap ≤ cnt + 1 then ([(idx, foundTerms env terms l, l)], 1)
    else
      ((idx, foundTerms env terms l, l) :: (scan env terms cap ls (idx + 1) (cnt + 1)).1,
       (scan env terms cap ls (idx + 1) (cnt + 1)).2 + 1)

/-- Outcome of `grep`. -/
inductive GrepOut where
  | invalid
  | results (ms : List (Nat × List Str × Str)) (examined : Nat)

/-- Run of `SemanticGrep.grep`: lazily train when no model is present
(`trained` is the model `train_model` would install), return early when
the preprocessed query is empty, build
`search_terms = set([target_word] + synonyms)` from
`get_synonyms(query, topn=4)`, and scan the corpus with cap 10. An
`Except.error` result stands for a propagated Python exception. -/
def grepRun (env : Env) (model : Option W2V) (trained : W2V)
    (corpus : List Str) (query : Str) : Except String GrepOut :=
  match preprocess_text env query with
  | [] => .ok .invalid
  | target :: _ =>
    match get_synonyms env (some (model.getD trained)) query 4 with
    | .raised => .error "ValueError"
    | out =>
      .ok (.results
        (scan env ((target :: synListOf out).dedup) 10 corpus 0 0).1
        (scan env ((target :: synListOf out).dedup) 10 corpus 0 0).2)

/-- Test for a propagated-exception result of `grepRun`. -/
def grepRaises {α : Type} : Except String α → Bool
  | .error _ => true
  | .ok _ => false

/-- Lines-with-matches of the corpus, enumerated from `idx`, with their
matched terms: the declarative description of the search loop's report
before the cap is applied. -/
def declMatches (env : Env) (terms : List Str) (idx : Nat) (ls : List Str) :
    List (Nat × List Str × Str) :=
  (List.enumFrom idx ls).filterMap (fun p =>
    if (foundTerms env terms p.2).isEmpty then none
    else some (p.1, foundTerms env terms p.2, p.2))

/-! ## Concrete example inputs

Tokens of the end-to-end example sentence
`"Иванов Иван родился 5 мая 1980 года в Москве"` and a small concrete
environment, used to evaluate the embedded definitions at concrete
inputs. -/

def tIvanov : Token := .word "Иванов" "иванов" true ["Name"]
def tIvan : Token := .word "Иван" "иван" true ["Name"]
def tRod : Token := .word "родился" "родился" false []
def tV : Token := .word "в" "в" false []
def tMoskve : Token := .word "Москве" "москва" true ["Geox"]
def t5 : Token := .int 5
def tMaya : Token := .word "мая" "май" false []
def t1980 : Token := .int 1980
def tGoda : Token := .word "года" "год" false []

/-- Token span of the full example sentence (pattern 1). -/
def exSpan1 : List Token :=
  [tIvanov, tIvan, tRod, t5, tMaya, t1980, tGoda, tV, tMoskve]

/-- Token span of a pattern-2 sentence (no date). -/
def exSpan2 : List Token := [tIvanov, tRod, tV, tMoskve]

/-- Concrete preprocessing environment: one token per text, no
stopwords except `эти`, identity normal form. -/
def wEnv : Env :=
  { tokenize := fun s => [s]
    stopWords := ["эти".data]
    normal := fun s => s }

/-- Concrete search terms for the scan examples. -/
def wTerms : List Str := ["aaa".data]

/-- Concrete trained model for the expansion examples. -/
def wModel : W2V :=
  { vocab := ["миллион".data]
    mostSimilar := fun _ _ => ["деньги".data] }

/-- Corpus of eleven matching lines (exceeds the report cap of 10). -/
def wCorpus11 : List Str := List.replicate 11 "aaa".data

/-- Corpus with one matching and one non-matching line. -/
def wCorpus2 : List Str := ["aaa".data, "bbb".data]

/-! ## Lemmas about the DATE sub-grammar -/

lemma dateR_cases (ts : List Token) (h : dateAccepts ts = true) :
    dateR1 ts = true ∨ dateR2 ts = true ∨ dateR3 ts = true ∨ dateR4 ts = true := by
  unfold dateAccepts dateAlt at h
  split_ifs at h with h1 h2 h3 h4
  · exact Or.inl h1
  · exact Or.inr (Or.inl h2)
  · exact Or.inr (Or.inr (Or.inl h3))
  · exact Or.inr (Or.inr (Or.inr h4))
  · simp at h

lemma dateAlt_isSome_of_rule (ts : List Token)
    (h : dateR1 ts = true ∨ dateR2 ts = true ∨ dateR3 ts = true ∨ dateR4 ts = true) :
    dateAccepts ts = true := by
  unfold dateAccepts dateAlt
  split_ifs with h1 h2 h3 h4 <;> simp_all

lemma dateR1_iff (ts : List Token) :
    dateR1 ts = true ↔
      (∃ a b c d, ts = [a, b, c, d] ∧ dayTok a = true ∧ monthTok b = true ∧
        yearTok c = true ∧ yearWordTok d = true) ∨
      (∃ a b c, ts = [a, b, c] ∧ dayTok a = true ∧ monthTok b = true ∧
        yearTok c = true) := by
  rcases ts with _ | ⟨a, _ | ⟨b, _ | ⟨c, _ | ⟨d, _ | ⟨e, rest⟩⟩⟩⟩⟩ <;>
    (simp [dateR1]; all_goals aesop)

lemma dateR2_iff (ts : List Token) :
    dateR2 ts = true ↔
      ∃ a b c, ts = [a, b, c] ∧ dayTok a = true ∧ monthTok b = true ∧
        yearTok c = true := by
  rcases ts with _ | ⟨a, _ | ⟨b, _ | ⟨c, _ | ⟨d, rest⟩⟩⟩⟩ <;>
    (simp [dateR2]; all_goals aesop)

lemma dateR3_iff (ts : List Token) :
    dateR3 ts = true ↔
      ∃ a b, ts = [a, b] ∧ dayTok a = true ∧ monthTok b = true := by
  rcases ts with _ | ⟨a, _ | ⟨b, _ | ⟨c, rest⟩⟩⟩ <;> (simp [dateR3]; all_goals aesop)

lemma dateR4_iff (ts : List Token) :
    dateR4 ts = true ↔
      ∃ a b, ts = [a, b] ∧ yearTok a = true ∧ yearWordTok b = true := by
  rcases ts with _ | ⟨a, _ | ⟨b, _ | ⟨c, rest⟩⟩⟩ <;> (simp [dateR4]; all_goals aesop)

lemma dayTok_int {v : Nat} (h : dayTok (Token.int v) = true) : 1 ≤ v ∧ v ≤ 31 := by
  simpa [dayTok] using h

lemma yearTok_int {v : Nat} (h : yearTok (Token.int v) = true) :
    1000 ≤ v ∧ v ≤ 2100 := by
  simpa [yearTok] using h

lemma date_bounds {ts : List Token} {v : Nat} (hm : Token.int v ∈ ts)
    (h : dateAccepts ts = true) :
    (1 ≤ v ∧ v ≤ 31) ∨ (1000 ≤ v ∧ v ≤ 2100) := by
  rcases dateR_cases ts h with h1 | h2 | h3 | h4
  · rcases (dateR1_iff ts).mp h1 with
      ⟨a, b, c, d, rfl, ha, hb, hc, hd⟩ | ⟨a, b, c, rfl, ha, hb, hc⟩
    · simp only [List.mem_cons, List.not_mem_nil, or_false] at hm
      rcases hm with h | h | h | h
      · exact Or.inl (dayTok_int (h ▸ ha))
      · rw [← h] at hb; simp [monthTok] at hb
      · exact Or.inr (yearTok_int (h ▸ hc))
      · rw [← h] at hd; simp [yearWordTok] at hd
    · simp only [List.mem_cons, List.not_mem_nil, or_false] at hm
      rcases hm with h | h | h
      · exact Or.inl (dayTok_int (h ▸ ha))
      · rw [← h] at hb; simp [monthTok] at hb
      · exact Or.inr (yearTok_int (h ▸ hc))
  · rcases (dateR2_iff ts).mp h2 with ⟨a, b, c, rfl, ha, hb, hc⟩
    simp only [List.mem_cons, List.not_mem_nil, or_false] at hm
    rcases hm with h | h | h
    · exact Or.inl (dayTok_int (h ▸ ha))
    · rw [← h] at hb; simp [monthTok] at hb
    · exact Or.inr (yearTok_int (h ▸ hc))
  · rcases (dateR3_iff ts).mp h3 with ⟨a, b, rfl, ha, hb⟩
    simp only [List.mem_cons, List.not_mem_nil, or_false] at hm
    rcases hm with h | h
    · exact Or.inl (dayTok_int (h ▸ ha))
    · rw [← h] at hb; simp [monthTok] at hb
  · rcases (dateR4_iff ts).mp h4 with ⟨a, b, rfl, ha, hb⟩
    simp only [List.mem_cons, List.not_mem_nil, or_false] at hm
    rcases hm with h | h
    · exact Or.inr (yearTok_int (h ▸ ha))
    · rw [← h] at hb; simp [yearWordTok] at hb

lemma dateAlt_none_of_mem_32 {ts : List Token} (hm : Token.int 32 ∈ ts) :
    dateAlt ts = none := by
  by_contra hne
  have hacc : dateAccepts ts = true := by
    unfold dateAccepts
    exact Option.isSome_iff_ne_none.mpr hne
  rcases date_bounds hm hacc with ⟨_, h⟩ | ⟨h, _⟩ <;> omega

/-! ## Lemmas about the sentence patterns -/

lemma p1At_spec {ts : List Token} {k : Nat} {e : Entry} (h : p1At ts k = some e) :
    nameSeq e.name = true ∧
    (∃ d, e.birth_date = some d ∧ dateAccepts d = true) ∧
    (∃ p, e.birth_place = some [p] ∧ placeTok p = true) := by
  unfold p1At at h
  split at h
  · exact absurd h (by simp)
  next v rest heq =>
    split_ifs at h with h1
    · split at h
      next i p heq2 =>
        split_ifs at h with h2
        cases h
        simp only [Bool.and_eq_true] at h1 h2
        exact ⟨h1.1.1, ⟨_, rfl, h2.1.1⟩, ⟨p, rfl, h2.2⟩⟩
      next => exact absurd h (by simp)

lemma matchP1_spec {ts : List Token} {e : Entry} (h : matchP1 ts = some e) :
    nameSeq e.name = true ∧
    (∃ d, e.birth_date = some d ∧ dateAccepts d = true) ∧
    (∃ p, e.birth_place = some [p] ∧ placeTok p = true) := by
  obtain ⟨k, _, hk⟩ := List.exists_of_findSome?_eq_some h
  exact p1At_spec hk

lemma matchP2_spec {ts : List Token} {e : Entry} (h : matchP2 ts = some e) :
    nameSeq e.name = true ∧ e.birth_date = none ∧
    (∃ p, e.birth_place = some [p] ∧ placeTok p = true) := by
  unfold matchP2 at h
  split_ifs at h with h1
  split at h
  next v i p heq =>
    split_ifs at h with h2
    cases h
    simp only [Bool.and_eq_true] at h2
    exact ⟨h2.1.1.1, rfl, ⟨p, rfl, h2.2⟩⟩
  next => exact absurd h (by simp)

lemma matchP3_spec {ts : List Token} {e : Entry} (h : matchP3 ts = some e) :
    nameSeq e.name = true ∧ e.birth_date = none ∧
    (∃ p, e.birth_place = some [p] ∧ placeTok p = true) := by
  unfold matchP3 at h
  split at h
  next v p nm =>
    split_ifs at h with h1
    cases h
    simp only [Bool.and_eq_true] at h1
    exact ⟨h1.2, rfl, ⟨p, rfl, h1.1.2⟩⟩
  next => exact absurd h (by simp)

lemma matchBirth_spec {ts : List Token} {e : Entry} (h : matchBirth ts = some e) :
    nameSeq e.name = true ∧
    (∃ p, e.birth_place = some [p] ∧ placeTok p = true) ∧
    (∀ d, e.birth_date = some d → dateAccepts d = true) := by
  unfold matchBirth at h
  split at h
  next e1 h1 =>
    cases h
    obtain ⟨hn, ⟨d, hd, hacc⟩, hp⟩ := matchP1_spec h1
    exact ⟨hn, hp, fun d' hd' => by rw [hd] at hd'; cases hd'; exact hacc⟩
  next h1 =>
    split at h
    next e2 h2 =>
      cases h
      obtain ⟨hn, hd, hp⟩ := matchP2_spec h2
      exact ⟨hn, hp, fun d' hd' => by rw [hd] at hd'; cases hd'⟩
    next h2 =>
      obtain ⟨hn, hd, hp⟩ := matchP3_spec h
      exact ⟨hn, hp, fun d' hd' => by rw [hd] at hd'; cases hd'⟩

lemma nameSeq_ne_nil {ts : List Token} (h : nameSeq ts = true) : ts ≠ [] := by
  intro hnil
  subst hnil
  simp [nameSeq] at h

/-! ## Lemmas about the search loop -/

lemma scan_cons (env : Env) (terms : List Str) (cap : Nat) (l : Str)
    (ls : List Str) (idx cnt : Nat) :
    scan env terms cap (l :: ls) idx cnt =
      if (foundTerms env terms l).isEmpty then
        ((scan env terms cap ls (idx + 1) cnt).1,
         (scan env terms cap ls (idx + 1) cnt).2 + 1)
      else if cap ≤ cnt + 1 then ([(idx, foundTerms env terms l, l)], 1)
      else
        ((idx, foundTerms env terms l, l) :: (scan env terms cap ls (idx + 1) (cnt + 1)).1,
         (scan env terms cap ls (idx + 1) (cnt + 1)).2 + 1) := rfl

lemma declMatches_cons (env : Env) (terms : List Str) (idx : Nat) (l : Str)
    (ls : List Str) :
    declMatches env terms idx (l :: ls) =
      (if (foundTerms env terms l).isEmpty then []
       else [(idx, foundTerms env terms l, l)]) ++ declMatches env terms (idx + 1) ls := by
  unfold declMatches
  rw [show List.enumFrom idx (l :: ls) = (idx, l) :: List.enumFrom (idx + 1) ls from rfl]
  rw [List.filterMap_cons]
  by_cases hf : (foundTerms env terms l).isEmpty
  · simp [hf]
  · simp [hf]

lemma declMatches_length (env : Env) (terms : List Str) :
    ∀ (ls : List Str) (idx : Nat),
      (declMatches env terms idx ls).length = ls.countP (matchesLine env terms) := by
  intro ls
  induction ls with
  | nil => intro idx; rfl
  | cons l ls ih =>
    intro idx
    rw [declMatches_cons, List.length_append, ih, List.countP_cons]
    by_cases hf : (foundTerms env terms l).isEmpty
    · simp [hf, matchesLine]
    · simp [hf, matchesLine]
      omega

lemma scan_fst (env : Env) (terms : List Str) (cap : Nat) :
    ∀ (ls : List Str) (idx cnt : Nat), cnt < cap →
      (scan env terms cap ls idx cnt).1 =
        (declMatches env terms idx ls).take (cap - cnt) := by
  intro ls
  induction ls with
  | nil => intro idx cnt _; simp [scan, declMatches]
  | cons l ls ih =>
    intro idx cnt hlt
    rw [declMatches_cons]
    by_cases hf : (foundTerms env terms l).isEmpty
    · rw [scan_cons, if_pos hf]
      simpa [hf] using ih (idx + 1) cnt hlt
    · by_cases hcap : cap ≤ cnt + 1
      · rw [scan_cons, if_neg hf, if_pos hcap]
        have hone : cap - cnt = 1 := by omega
        simp [hf, hone]
      · rw [scan_cons, if_neg hf, if_neg hcap]
        have h1 : cap - cnt = (cap - (cnt + 1)) + 1 := by omega
        simp only [hf, Bool.false_eq_true, if_false, List.singleton_append]
        rw [h1, List.take_succ_cons, ih (idx + 1) (cnt + 1) (by omega)]

lemma scan_snd_lt (env : Env) (terms : List Str) (cap : Nat) :
    ∀ (ls : List Str) (idx cnt : Nat), cnt < cap →
      cap - cnt < ls.countP (matchesLine env terms) →
      (scan env terms cap ls idx cnt).2 < ls.length := by
  intro ls
  induction ls with
  | nil => intro idx cnt _ h2; simp at h2
  | cons l ls ih =>
    intro idx cnt hlt hcnt
    rw [List.countP_cons] at hcnt
    by_cases hf : (foundTerms env terms l).isEmpty
    · have hml : matchesLine env terms l = false := by
        simp [matchesLine, hf]
      rw [hml] at hcnt
      simp at hcnt
      rw [scan_cons, if_pos hf]
      simpa using Nat.succ_lt_succ (ih (idx + 1) cnt hlt hcnt)
    · have hml : matchesLine env terms l = true := by
        simp [matchesLine, hf]
      rw [hml] at hcnt
      simp at hcnt
      by_cases hcap : cap ≤ cnt + 1
      · rw [scan_cons, if_neg hf, if_pos hcap]
        have hpos : 0 < ls.countP (matchesLine env terms) := by omega
        obtain ⟨a, ha, _⟩ := List.countP_pos_iff.mp hpos
        have : 0 < ls.length := List.length_pos.mpr (List.ne_nil_of_mem ha)
        simpa using this
      · rw [scan_cons, if_neg hf, if_neg hcap]
        have : cap - (cnt + 1) < ls.countP (matchesLine env terms) := by omega
        simpa using Nat.succ_lt_succ (ih (idx + 1) (cnt + 1) (by omega) this)

lemma mem_declMatches {env : Env} {terms : List Str} {idx : Nat} {ls : List Str}
    {i : Nat} {f : List Str} {l : Str}
    (h : (i, f, l) ∈ declMatches env terms idx ls) :
    f = foundTerms env terms l ∧ matchesLine env terms l = true := by
  unfold declMatches at h
  obtain ⟨⟨pi, pl⟩, _, hp⟩ := List.mem_filterMap.mp h
  dsimp only at hp
  by_cases hf : (foundTerms env terms pl).isEmpty
  · rw [if_pos hf] at hp; cases hp
  · rw [if_neg hf] at hp
    simp only [Option.some.injEq, Prod.mk.injEq] at hp
    obtain ⟨h1, h2, h3⟩ := hp
    subst h3
    exact ⟨h2.symm, by simp [matchesLine, hf]⟩

lemma get_synonyms_some_ne_raised (env : Env) (m : W2V) (w : Str) (topn : Nat) :
    get_synonyms env (some m) w topn ≠ .raised := by
  unfold get_synonyms
  cases hpp : preprocess_text env w with
  | nil => simp
  | cons t rest =>
    by_cases hv : t ∈ m.vocab
    · simp [hv]
    · simp [hv]

/-! ## Claim theorems -/

/-- C1: the DATE sub-grammar accepts exactly four surface forms — (day,
month, year, optional year-word), (day, month, year), (day, month),
(year, year-word) — with the day an integer in [1,31] and the year an
integer in [1000,2100]; every INT token of an accepted span lies in one
of those ranges, a span containing the INT token 32 is matched by no
sub-rule, and no birth_date produced by the sentence grammar contains 32. -/
theorem date_grammar_C1 :
    (∀ ts, dateAccepts ts = true ↔
      ((∃ a b c d, ts = [a, b, c, d] ∧ dayTok a = true ∧ monthTok b = true ∧
          yearTok c = true ∧ yearWordTok d = true) ∨
       (∃ a b c, ts = [a, b, c] ∧ dayTok a = true ∧ monthTok b = true ∧
          yearTok c = true) ∨
       (∃ a b, ts = [a, b] ∧ dayTok a = true ∧ monthTok b = true) ∨
       (∃ a b, ts = [a, b] ∧ yearTok a = true ∧ yearWordTok b = true))) ∧
    (∀ ts v, Token.int v ∈ ts → dateAccepts ts = true →
      (1 ≤ v ∧ v ≤ 31) ∨ (1000 ≤ v ∧ v ≤ 2100)) ∧
    (∀ ts, Token.int 32 ∈ ts → dateAlt ts = none) ∧
    (∀ ts e d, matchBirth ts = some e → e.birth_date = some d →
      dateAccepts d = true ∧ Token.int 32 ∉ d) := by
  refine ⟨?_, ?_, ?_, ?_⟩
  · intro ts
    constructor
    · intro h
      rcases dateR_cases ts h with h1 | h2 | h3 | h4
      · rcases (dateR1_iff ts).mp h1 with h | h
        · exact Or.inl h
        · exact Or.inr (Or.inl h)
      · exact Or.inr (Or.inl ((dateR2_iff ts).mp h2))
      · exact Or.inr (Or.inr (Or.inl ((dateR3_iff ts).mp h3)))
      · exact Or.inr (Or.inr (Or.inr ((dateR4_iff ts).mp h4)))
    · intro h
      apply dateAlt_isSome_of_rule
      rcases h with h | h | h | h
      · exact Or.inl ((dateR1_iff ts).mpr (Or.inl h))
      · exact Or.inr (Or.inl ((dateR2_iff ts).mpr h))
      · exact Or.inr (Or.inr (Or.inl ((dateR3_iff ts).mpr h)))
      · exact Or.inr (Or.inr (Or.inr ((dateR4_iff ts).mpr h)))
  · intro ts v hm h
    exact date_bounds hm h
  · intro ts hm
    exact dateAlt_none_of_mem_32 hm
  · intro ts e d hb hd
    have hacc := (matchBirth_spec hb).2.2 d hd
    refine ⟨hacc, fun hm => ?_⟩
    rw [dateAccepts, dateAlt_none_of_mem_32 hm] at hacc
    cases hacc

/-- Witness for C1: the year 1980 of an accepted span satisfies the year
bounds, the span (32, month) is matched by no sub-rule, and the
birth_date of the fact extracted from the example sentence is an accepted
span not containing 32. -/
theorem date_grammar_C1_witness :
    ((1 ≤ 1980 ∧ 1980 ≤ 31) ∨ (1000 ≤ 1980 ∧ 1980 ≤ 2100)) ∧
    dateAlt [Token.int 32, tMaya] = none ∧
    (dateAccepts [t5, tMaya, t1980, tGoda] = true ∧
     Token.int 32 ∉ [t5, tMaya, t1980, tGoda]) :=
  ⟨date_grammar_C1.2.1 [t1980, tGoda] 1980 (by decide) (by decide),
   date_grammar_C1.2.2.1 [Token.int 32, tMaya] (by decide),
   date_grammar_C1.2.2.2 exSpan1
     ⟨[tIvanov, tIvan], some [t5, tMaya, t1980, tGoda], some [tMoskve]⟩
     [t5, tMaya, t1980, tGoda] (by decide) rfl⟩

/-- C2: a line whose extracted, lowercased text contains neither keyword
stem is never handed to the parser (the loop body's result does not
depend on the parser and no fact is emitted), while every non-empty line
whose extracted text contains a stem is passed to the parser. -/
theorem prefilter_C2 :
    (∀ pa pb line, hasKeyword (selectText1 (pyStrip line)) = false →
      processLine pa line = processLine pb line) ∧
    (∀ pa line fs, hasKeyword (selectText1 (pyStrip line)) = false →
      processLine pa line ≠ .parsed fs) ∧
    (∀ pa line, pyStrip line ≠ [] →
      hasKeyword (selectText1 (pyStrip line)) = true →
      processLine pa line = .parsed (pa (selectText1 (pyStrip line)))) := by
  refine ⟨?_, ?_, ?_⟩
  · intro pa pb line h
    unfold processLine
    by_cases he : (pyStrip line).isEmpty
    · rw [if_pos he, if_pos he]
    · rw [if_neg he, if_neg he, if_neg (by simp [h]), if_neg (by simp [h])]
  · intro pa line fs h
    unfold processLine
    by_cases he : (pyStrip line).isEmpty
    · rw [if_pos he]; simp
    · rw [if_neg he, if_neg (by simp [h])]; simp
  · intro pa line hne h
    unfold processLine
    rw [if_neg (by simpa using hne), if_pos (by simp [h])]

/-- Witness for C2: a keyword-bearing line is parsed; a line without the
stems is not. -/
theorem prefilter_C2_witness :
    processLine (fun _ => []) "Иванов родился в Москве".data =
      .parsed ((fun _ => ([] : List Entry))
        (selectText1 (pyStrip "Иванов родился в Москве".data))) ∧
    processLine (fun _ => ([] : List Entry)) "обычные новости".data ≠
      .parsed [] :=
  ⟨prefilter_C2.2.2 _ _ (by decide) (by decide),
   prefilter_C2.2.1 _ _ [] (by decide)⟩

/-- C3 counterexample: every fact produced by the sentence grammar binds
the place slot — all three patterns contain PLACE — so birth_place is
never absent, contradicting the claim that each of birth_date and
birth_place is absent for at least one pattern. -/
theorem birth_fact_C3_counterexample :
    ¬ ∃ ts e, matchBirth ts = some e ∧ e.birth_place = none := by
  rintro ⟨ts, e, h, hp⟩
  obtain ⟨-, ⟨p, hp2, -⟩, -⟩ := matchBirth_spec h
  rw [hp] at hp2
  cases hp2

/-- C3 amended: every produced fact has a non-empty name; birth_date is
genuinely optional (absent for patterns 2 and 3, present for pattern 1);
birth_place, however, is present in every produced fact. -/
theorem birth_fact_C3 :
    (∀ ts e, matchBirth ts = some e → e.name ≠ [] ∧ e.birth_place ≠ none) ∧
    (∃ ts e, matchBirth ts = some e ∧ e.birth_date = none) ∧
    (∃ ts e, matchBirth ts = some e ∧ e.birth_date ≠ none) := by
  refine ⟨?_, ?_, ?_⟩
  · intro ts e h
    obtain ⟨hn, ⟨p, hp, -⟩, -⟩ := matchBirth_spec h
    exact ⟨nameSeq_ne_nil hn, by rw [hp]; simp⟩
  · exact ⟨exSpan2, ⟨[tIvanov], none, some [tMoskve]⟩, by decide, rfl⟩
  · exact ⟨exSpan1,
      ⟨[tIvanov, tIvan], some [t5, tMaya, t1980, tGoda], some [tMoskve]⟩,
      by decide, by decide⟩

/-- Witness for C3 at the pattern-2 example sentence. -/
theorem birth_fact_C3_witness :
    (⟨[tIvanov], none, some [tMoskve]⟩ : Entry).name ≠ [] ∧
    (⟨[tIvanov], none, some [tMoskve]⟩ : Entry).birth_place ≠ none :=
  birth_fact_C3.1 exSpan2 ⟨[tIvanov], none, some [tMoskve]⟩ (by decide)

/-- C4: with a trained model, expansion never raises; a query whose
preprocessed form is empty, or whose normalized first token is out of
vocabulary, yields the diagnostic empty result; otherwise the expansion
is most_similar(target, topn) and the search-term set built by grep is
exactly the top-N list together with the normalized query token. -/
theorem expand_C4 :
    (∀ env m w topn, (get_synonyms env (some m) w topn).isRaised = false) ∧
    (∀ env m w topn, preprocess_text env w = [] →
      get_synonyms env (some m) w topn = .filteredEmpty ∧
      synListOf (get_synonyms env (some m) w topn) = []) ∧
    (∀ env m w topn t rest, preprocess_text env w = t :: rest →
      t ∉ m.vocab →
      get_synonyms env (some m) w topn = .oovEmpty t ∧
      synListOf (get_synonyms env (some m) w topn) = []) ∧
    (∀ env m w topn t rest, preprocess_text env w = t :: rest →
      t ∈ m.vocab →
      get_synonyms env (some m) w topn = .ok t (m.mostSimilar t topn) ∧
      (∀ x, x ∈ (t :: synListOf (get_synonyms env (some m) w topn)).dedup ↔
        (x = t ∨ x ∈ m.mostSimilar t topn))) := by
  refine ⟨?_, ?_, ?_, ?_⟩
  · intro env m w topn
    cases hg : get_synonyms env (some m) w topn with
    | raised => exact absurd hg (get_synonyms_some_ne_raised env m w topn)
    | filteredEmpty => rfl
    | oovEmpty t => rfl
    | ok t syns => rfl
  · intro env m w topn h
    unfold get_synonyms
    rw [h]
    exact ⟨rfl, rfl⟩
  · intro env m w topn t rest h hv
    unfold get_synonyms
    rw [h]
    simp [hv, synListOf]
  · intro env m w topn t rest h hv
    have hg : get_synonyms env (some m) w topn = .ok t (m.mostSimilar t topn) := by
      unfold get_synonyms
      rw [h]
      simp [hv]
    refine ⟨hg, fun x => ?_⟩
    rw [hg]
    simp [synListOf, List.mem_dedup, List.mem_cons]

/-- Witness for C4: the stopword query returns the diagnostic empty
result; an in-vocabulary query expands to its neighbours plus itself. -/
theorem expand_C4_witness :
    (get_synonyms wEnv (some wModel) "эти".data 4 = .filteredEmpty ∧
     synListOf (get_synonyms wEnv (some wModel) "эти".data 4) = []) ∧
    (get_synonyms wEnv (some wModel) "миллион".data 4 =
      .ok "миллион".data (wModel.mostSimilar "миллион".data 4)) ∧
    ("деньги".data ∈
        ("миллион".data ::
          synListOf (get_synonyms wEnv (some wModel) "миллион".data 4)).dedup ↔
      ("деньги".data = "миллион".data ∨
       "деньги".data ∈ wModel.mostSimilar "миллион".data 4)) :=
  ⟨expand_C4.2.1 wEnv wModel "эти".data 4 (by decide),
   (expand_C4.2.2.2 wEnv wModel "миллион".data 4 "миллион".data []
     (by decide) (by decide)).1,
   (expand_C4.2.2.2 wEnv wModel "миллион".data 4 "миллион".data []
     (by decide) (by decide)).2 "деньги".data⟩

/-- C5: when more than 10 corpus lines match, the search loop reports
exactly 10 matches and stops scanning before reaching the end of the
corpus. -/
theorem search_cap_C5 (env : Env) (terms : List Str) (corpus : List Str)
    (h : 10 < corpus.countP (matchesLine env terms)) :
    (scan env terms 10 corpus 0 0).1.length = 10 ∧
    (scan env terms 10 corpus 0 0).2 < corpus.length := by
  constructor
  · rw [scan_fst env terms 10 corpus 0 0 (by omega), List.length_take,
      declMatches_length]
    simp only [Nat.sub_zero]
    omega
  · exact scan_snd_lt env terms 10 corpus 0 0 (by omega) (by simpa using h)

/-- Witness for C5 on an 11-line corpus in which every line matches. -/
theorem search_cap_C5_witness :
    (scan wEnv wTerms 10 wCorpus11 0 0).1.length = 10 ∧
    (scan wEnv wTerms 10 wCorpus11 0 0).2 < wCorpus11.length :=
  search_cap_C5 wEnv wTerms wCorpus11 (by decide)

/-- C6 counterexample: in an 11-line corpus whose every line has a
non-empty intersection with the search terms, the line at index 10 is
matching yet unreported — the reported indices are exactly 0..9 — so
"reported iff non-empty intersection" fails as stated for every line. -/
theorem intersection_C6_counterexample :
    matchesLine wEnv wTerms "aaa".data = true ∧
    wCorpus11.length = 11 ∧
    ((scan wEnv wTerms 10 wCorpus11 0 0).1.map Prod.fst) =
      [0, 1, 2, 3, 4, 5, 6, 7, 8, 9] := by decide

/-- C6 amended: every reported match carries exactly the (non-empty)
intersection of the expansion set with the line's lemma set; and whenever
at most 10 lines match, the report is exactly the enumerated list of
lines with non-empty intersection — the iff holds except for matching
lines beyond the 10-match cap. -/
theorem intersection_C6 :
    (∀ env terms corpus i f l,
      (i, f, l) ∈ (scan env terms 10 corpus 0 0).1 →
      f = foundTerms env terms l ∧ matchesLine env terms l = true) ∧
    (∀ env terms corpus,
      corpus.countP (matchesLine env terms) ≤ 10 →
      (scan env terms 10 corpus 0 0).1 = declMatches env terms 0 corpus) := by
  constructor
  · intro env terms corpus i f l h
    rw [scan_fst env terms 10 corpus 0 0 (by omega)] at h
    exact mem_declMatches (List.mem_of_mem_take h)
  · intro env terms corpus h
    rw [scan_fst env terms 10 corpus 0 0 (by omega)]
    apply List.take_of_length_le
    rw [declMatches_length]
    simpa using h

/-- Witness for C6 on a two-line corpus with one matching line. -/
theorem intersection_C6_witness :
    (["aaa".data] = foundTerms wEnv wTerms "aaa".data ∧
     matchesLine wEnv wTerms "aaa".data = true) ∧
    (scan wEnv wTerms 10 wCorpus2 0 0).1 = declMatches wEnv wTerms 0 wCorpus2 :=
  ⟨intersection_C6.1 wEnv wTerms wCorpus2 0 ["aaa".data] "aaa".data (by decide),
   intersection_C6.2 wEnv wTerms wCorpus2 (by decide)⟩

/-- C7 counterexample: on a four-column row the extractor takes the last
column but the search tool takes the third, so "the body (last column) is
selected" does not hold of both pipelines. -/
theorem column_C7_counterexample :
    selectText1 "a\tb\tc\td".data = "d".data ∧
    selectText2 "a\tb\tc\td".data = "c".data ∧
    "c".data ≠ "d".data := by decide

/-- C7 amended: with at least 3 tab-separated columns the extractor
selects the last column and the search tool the third column — the same
column exactly when the row has exactly 3 columns — and a malformed row
(< 3 columns) falls back to the whole line in both pipelines. -/
theorem column_C7 :
    (∀ l a b c, splitTab (pyStrip l) = [a, b, c] →
      selectText1 (pyStrip l) = c ∧ selectText2 l = c) ∧
    (∀ l, (splitTab (pyStrip l)).length < 3 →
      selectText1 (pyStrip l) = pyStrip l ∧ selectText2 l = l) ∧
    (∀ l, 3 ≤ (splitTab (pyStrip l)).length →
      selectText1 (pyStrip l) = (splitTab (pyStrip l)).getLastD [] ∧
      selectText2 l = (splitTab (pyStrip l)).getD 2 []) := by
  refine ⟨?_, ?_, ?_⟩
  · intro l a b c h
    unfold selectText1 selectText2
    rw [h]
    simp
  · intro l h
    unfold selectText1 selectText2
    rw [if_neg (by omega), if_neg (by omega)]
    exact ⟨rfl, rfl⟩
  · intro l h
    unfold selectText1 selectText2
    rw [if_pos h, if_pos h]
    exact ⟨rfl, rfl⟩

/-- Witness for C7 on a three-column row and on a plain line. -/
theorem column_C7_witness :
    (selectText1 (pyStrip "x\ty\tz".data) = "z".data ∧
     selectText2 "x\ty\tz".data = "z".data) ∧
    (selectText1 (pyStrip "просто текст".data) = pyStrip "просто текст".data ∧
     selectText2 "просто текст".data = "просто текст".data) :=
  ⟨column_C7.1 "x\ty\tz".data "x".data "y".data "z".data (by decide),
   column_C7.2.1 "просто текст".data (by decide)⟩

/-- C8: a missing input file makes the extractor report the error and
return normally with no entries, while the search tool exits with status
1; a mid-stream exception in the extractor is caught and the partial
entry list collected so far is returned; the extractor never propagates
an exception or exits. -/
theorem errors_C8 :
    (∀ pa, runExtract pa .missing = (.returns [], true)) ∧
    (∀ env, runLoad env .missing = .exits 1) ∧
    (∀ env ls, runLoad env (.errAfter ls) = .exits 1) ∧
    (∀ pa ls, runExtract pa (.errAfter ls) =
      (.returns (collectEntries pa ls), true)) ∧
    (∀ pa r, ∃ es b, runExtract pa r = (.returns es, b)) := by
  refine ⟨fun _ => rfl, fun _ => rfl, fun _ _ => rfl, fun _ _ => rfl, ?_⟩
  intro pa r
  cases r with
  | missing => exact ⟨[], true, rfl⟩
  | errAfter ls => exact ⟨collectEntries pa ls, true, rfl⟩
  | ok ls => exact ⟨collectEntries pa ls, false, rfl⟩

/-- C10: calling get_synonyms with no trained model raises the
ValueError; with a model present it never raises; and grep, which lazily
trains before querying, never propagates that error. -/
theorem lazy_train_C10 :
    (∀ env w topn, get_synonyms env none w topn = .raised) ∧
    (∀ env m w topn, (get_synonyms env (some m) w topn).isRaised = false) ∧
    (∀ env model trained corpus q,
      grepRaises (grepRun env model trained corpus q) = false) := by
  refine ⟨fun _ _ _ => rfl, ?_, ?_⟩
  · intro env m w topn
    cases hg : get_synonyms env (some m) w topn with
    | raised => exact absurd hg (get_synonyms_some_ne_raised env m w topn)
    | filteredEmpty => rfl
    | oovEmpty t => rfl
    | ok t syns => rfl
  · intro env model trained corpus q
    unfold grepRun
    cases hq : preprocess_text env q with
    | nil => rfl
    | cons target rest =>
      cases hg : get_synonyms env (some (model.getD trained)) q 4 with
      | raised =>
        exact absurd hg (get_synonyms_some_ne_raised env (model.getD trained) q 4)
      | filteredEmpty => rfl
      | oovEmpty t => rfl
      | ok t syns => rfl

end NLP2025
